import Mathlib

/-!
Verification of the Autonomous Agentic AI Stock Dashboard frontend.

The definitions below are a shallow embedding of the dashboard client
(`frontend/app/page.tsx` — the `Dashboard` component with `loadMarketData`,
`handleAnalyze` and `pollTask` — and `frontend/components/Chart.tsx`).
JavaScript numbers are modelled as exact rationals, strings as Lean strings,
optional/absent JSON fields as `Option`, and the pieces of JavaScript
truthiness the code relies on (`||` on strings and objects, `??`, a numeric
condition) are modelled explicitly where they occur.  The backend pipeline
(the Writer ⇄ Critic revision loop and the fatal-error cause strings) is not
part of the available sources; those definitions are modelled from the spec
and are marked as such in their doc comments.
-/

namespace StockDash

/-- Models the JavaScript expression `a || b` for an optional string `a`:
the result is `a` unless `a` is absent or the empty string (the falsy
strings), in which case it is the fallback `b`. -/
def jsOrStr (a : Option String) (b : String) : String :=
  match a with
  | none => b
  | some s => if s = "" then b else s

/-- Models `String.prototype.toUpperCase` on the ASCII range (ticker symbols
are basic-latin text; `Char.toUpper` uppercases exactly the latin lowercase
letters, as the JavaScript builtin does on them). -/
def jsToUpper (s : String) : String :=
  String.mk (s.data.map Char.toUpper)

/-- Whether the string contains a lowercase latin letter. -/
def hasLowerStr (s : String) : Bool :=
  s.data.any Char.isLower

/-- A JSON-like value, modelling the TypeScript `any` payloads that the
dashboard carries around but never inspects (the report's
`technical_indicators` field is rendered verbatim). -/
inductive Js where
  | null
  | bool (b : Bool)
  | num (q : ℚ)
  | str (s : String)
  | arr (elems : List Js)
  | obj (fields : List (String × Js))

/-- `type Candle` of `frontend/app/page.tsx` / `Chart.tsx`: one OHLCV bar;
`volume` is optional. -/
structure Candle where
  time : String
  «open» : ℚ
  high : ℚ
  low : ℚ
  close : ℚ
  volume : Option ℚ

/-- A `{time, value}` point of a lightweight-charts line series
(`LineData`). -/
structure LineData where
  time : String
  value : ℚ

/-- `type IndicatorSeries` of `frontend/app/page.tsx`: the three optional
overlay series of the history response. -/
structure IndicatorSeries where
  sma50 : Option (List LineData) := none
  sma200 : Option (List LineData) := none
  ema20 : Option (List LineData) := none

/-- `type MacdSeries` of `frontend/app/page.tsx`: the MACD sub-panel data
(the histogram entries are opaque to the dashboard and modelled as
time/value points). -/
structure MacdSeries where
  macd : List LineData
  signal : List LineData
  histogram : List LineData

/-- A news item as consumed by the news panel: `item.title`, `item.url`,
`item.excerpt` and the optional numeric `item.score`. -/
structure NewsItem where
  title : String
  url : String
  excerpt : String
  score : Option ℚ

/-- `type Report` of `frontend/app/page.tsx`: every field of the draft
report is optional; `{}` is the empty report. -/
structure Report where
  executive_summary : Option String := none
  technical_outlook : Option String := none
  risks : Option String := none
  strategy : Option String := none
  technical_indicators : Option Js := none
  confidence : Option String := none

/-- The `result` object of a poll response: `{draft_report: ...}`, with the
report possibly absent or null. -/
structure TaskResult where
  draft_report : Option Report

/-- A poll response of `GET /api/analyze/{task_id}`:
`{status, result?, error?}`.  The status is carried as the raw string the
server sent. -/
structure TaskResp where
  status : String
  result : Option TaskResult
  error : Option String

/-- The parsed body of `GET /api/market/history`: `candles` plus the three
optional series groups the client defaults with `||`. -/
structure HistoryResp where
  candles : List Candle
  indicators : Option IndicatorSeries
  rsi : Option (List LineData)
  macd : Option MacdSeries

/-- The parsed body of `GET /api/market/news`: `{news?: NewsItem[]}`. -/
structure NewsResp where
  news : Option (List NewsItem)

/-- The `status` state of the `Dashboard` component:
`"idle" | "loading" | "analyzing"`. -/
inductive DashStatus where
  | idle
  | loading
  | analyzing
deriving DecidableEq

/-- The state of the `Dashboard` component: the `useState` hooks of
`frontend/app/page.tsx`, plus bookkeeping for the effects the component
starts: `pendingAnalyze` records an analyze request in flight (the `fetch`
of `handleAnalyze` between `setStatus("analyzing")` and its resolution),
`activePolls` counts the `setInterval` poll loops currently installed, and
`requestedTickers` is a ghost log of the `ticker` query parameter of every
request issued, used only by the specification. -/
structure DashState where
  ticker : String
  candles : List Candle
  indicators : IndicatorSeries
  rsiSeries : List LineData
  macdSeries : Option MacdSeries
  news : List NewsItem
  report : Report
  status : DashStatus
  errorMsg : String
  pendingAnalyze : Bool
  activePolls : Nat
  requestedTickers : List String

/-- The initial component state: ticker `"AAPL"`, empty data, idle. -/
def initState : DashState where
  ticker := "AAPL"
  candles := []
  indicators := {}
  rsiSeries := []
  macdSeries := none
  news := []
  report := {}
  status := .idle
  errorMsg := ""
  pendingAnalyze := false
  activePolls := 0
  requestedTickers := []

/-- The generic fallback of the poll error branch:
`task.error || "Agent run failed. Check backend logs or API keys."`. -/
def pollGenericErrorMsg : String :=
  "Agent run failed. Check backend logs or API keys."

/-- The message set when the analyze request itself fails. -/
def analyzeFailedMsg : String :=
  "Analyze request failed. Check API key / backend logs."

/-- The delay passed to `setInterval` in `pollTask`, in milliseconds. -/
def pollIntervalMs : Nat := 1500

/-- Whether a poll status is terminal for the client: the two statuses on
which `pollTask` clears its interval. -/
def isTerminalStatus (st : String) : Bool :=
  st == "complete" || st == "error"

/-- One invocation of the `setInterval` callback of `pollTask`
(`frontend/app/page.tsx`): on `"complete"` it clears the interval, stores
`task.result?.draft_report || {}` as the report and goes idle; on `"error"`
it clears the interval, surfaces `task.error || <generic message>` and goes
idle; on any other status it changes nothing.  Clearing the interval is
modelled by decrementing `activePolls`. -/
def pollStep (s : DashState) (t : TaskResp) : DashState :=
  let s1 :=
    if t.status == "complete" then
      { s with activePolls := s.activePolls - 1
               report := (t.result.bind TaskResult.draft_report).getD {}
               status := .idle }
    else s
  if t.status == "error" then
    { s1 with activePolls := s1.activePolls - 1
              errorMsg := jsOrStr t.error pollGenericErrorMsg
              status := .idle }
  else s1

/-- One poll interval consuming a sequence of poll responses, as long as it
has not been cleared; returns the final state and the number of
`GET /api/analyze/{task_id}` requests issued.  (Models a single task's
interval: the precondition of the theorems is that it is the only one
installed.) -/
def runPoll (s : DashState) : List TaskResp → DashState × Nat
  | [] => (s, 0)
  | t :: ts =>
    if 0 < s.activePolls then
      let r := runPoll (pollStep s t) ts
      (r.1, r.2 + 1)
    else (s, 0)

/-- The success path of `loadMarketData` (`frontend/app/page.tsx`): store the
two parsed responses — `candles` as returned, `indicators || {}`,
`rsi || []`, `macd || null`, `news || []` — and return to idle through the
`finally` block. -/
def applyMarketData (s : DashState) (pr : HistoryResp) (nr : NewsResp) :
    DashState :=
  { s with candles := pr.candles
           indicators := pr.indicators.getD {}
           rsiSeries := pr.rsi.getD []
           macdSeries := pr.macd
           news := nr.news.getD []
           status := .idle }

/-- The observable events of the `Dashboard` component.
`tickerInput raw` is an `onChange` of the ticker input with raw value `raw`;
`loadStart` is the start of `loadMarketData` (reached from the
timeframe-change effect, which has no guard, or from the Refresh button),
issuing the two market requests; `loadDone`/`loadFail` are its resolution;
`clickAnalyze` is a click on the Analyze button, which is disabled unless
the status is idle; `analyzeOk`/`analyzeFail` are the resolution of the
analyze request, the former installing a poll interval; `pollResp` is a poll
response handled by an installed interval. -/
inductive DashEv where
  | tickerInput (raw : String)
  | loadStart
  | loadDone (pr : HistoryResp) (nr : NewsResp)
  | loadFail
  | clickAnalyze
  | analyzeOk
  | analyzeFail
  | pollResp (t : TaskResp)

/-- The transition function of the `Dashboard` component: how each event
updates the component state.  Guarded events (a disabled button, a resolved
request, a cleared interval) leave the state unchanged. -/
def step (s : DashState) (e : DashEv) : DashState :=
  match e with
  | .tickerInput raw => { s with ticker := jsToUpper raw }
  | .loadStart =>
    { s with status := .loading
             errorMsg := ""
             requestedTickers := s.requestedTickers ++ [s.ticker, s.ticker] }
  | .loadDone pr nr => applyMarketData s pr nr
  | .loadFail => { s with status := .idle }
  | .clickAnalyze =>
    if s.status = .idle then
      { s with status := .analyzing
               report := {}
               errorMsg := ""
               pendingAnalyze := true
               requestedTickers := s.requestedTickers ++ [s.ticker] }
    else s
  | .analyzeOk =>
    if s.pendingAnalyze then
      { s with pendingAnalyze := false
               activePolls := s.activePolls + 1 }
    else s
  | .analyzeFail =>
    if s.pendingAnalyze then
      { s with pendingAnalyze := false
               status := .idle
               errorMsg := analyzeFailedMsg }
    else s
  | .pollResp t =>
    if 0 < s.activePolls then pollStep s t else s

/-- Run a sequence of events from a state. -/
def runEvents (s : DashState) (evs : List DashEv) : DashState :=
  evs.foldl step s

/-- Whether the news panel shows the "No news fetched (soft fail safe)"
placeholder: `news.length === 0`. -/
def noNewsPlaceholder (s : DashState) : Bool :=
  s.news.length == 0

/-- The color of an up bar in the volume histogram of `Chart.tsx`. -/
def volUpColor : String := "rgba(110, 231, 183, 0.5)"

/-- The color of a down bar in the volume histogram of `Chart.tsx`. -/
def volDownColor : String := "rgba(252, 165, 165, 0.5)"

/-- One bar of the volume histogram series. -/
structure VolumeBar where
  time : String
  value : ℚ
  color : String

/-- The data passed to the volume histogram series in
`frontend/components/Chart.tsx`: one bar per candle, with
`value: c.volume ?? 0` and the up color exactly when `c.close >= c.open`. -/
def volumeBars (candles : List Candle) : List VolumeBar :=
  candles.map fun c =>
    { time := c.time
      value := c.volume.getD 0
      color := if c.close ≥ c.open then volUpColor else volDownColor }

/-- What the sentiment badge of a news item displays. -/
inductive SentimentBadge where
  | neutral
  | twoDecimals (value : ℚ)
deriving DecidableEq

/-- Models `Number.prototype.toFixed(2)` on exact rationals: the value
rounded to hundredths (on a tie, ECMA-262 picks the larger candidate). -/
def jsToFixed2 (q : ℚ) : ℚ :=
  (⌊q * 100 + 1 / 2⌋ : ℚ) / 100

/-- The sentiment badge of one rendered news item
(`item.score ? item.score.toFixed(2) : "Neutral"`): a conditional on the
JavaScript truthiness of the numeric score, which is falsy when the score
is absent and also when it equals 0. -/
def sentimentBadge (score : Option ℚ) : SentimentBadge :=
  match score with
  | none => .neutral
  | some q => if q = 0 then .neutral else .twoDecimals (jsToFixed2 q)

/-- Modelled from the spec: the two fatal failure classes of the backend
pipeline (`backend/agents/graph.py` and `backend/main.py` are not among the
available sources).  A task that ends in `error` status carries a specific
human-readable cause, distinguishing the no-data case from the drafting
case. -/
inductive FatalKind where
  | priceDataUnavailable
  | draftParseFailure

/-- Modelled from the spec: the specific cause string attached to each
fatal failure class. -/
def fatalCause : FatalKind → String
  | .priceDataUnavailable => "price data unavailable after retries"
  | .draftParseFailure => "report drafting failed: invalid structured output"

/-- The confidence levels of a draft report. -/
inductive Confidence where
  | low
  | medium
  | high
deriving DecidableEq

/-- The outcome of the Drafting ⇄ Reviewing loop: the accepted draft, the
confidence the Critic assigned, and how many times the Writer was
invoked. -/
structure ReviewOutcome (α : Type) where
  draft : α
  confidence : Confidence
  writerCalls : Nat

/-- Modelled from the spec: the backend Drafting ⇄ Reviewing loop
(`backend/agents/graph.py`, not among the available sources).  `writer` is
the Writer stage as a function of the critic feedback, `check` the Critic's
validation — `none` on acceptance, a mismatch description on rejection —
and `accept` the confidence assigned on genuine acceptance.  On rejection
the Critic increments `revision_count` (`rc`), attaches the mismatch
description as feedback and routes back to the Writer — unless `rc` has
already reached 2, in which case it accepts the current draft and forcibly
sets confidence Low.  `calls` accumulates Writer invocations. -/
def reviewLoop {α : Type} (writer : Option String → α)
    (check : α → Option String) (accept : α → Confidence)
    (fb : Option String) (rc : Nat) (calls : Nat) : ReviewOutcome α :=
  let d := writer fb
  match check d with
  | none => ⟨d, accept d, calls + 1⟩
  | some msg =>
    if h : rc ≥ 2 then ⟨d, .low, calls + 1⟩
    else reviewLoop writer check accept (some msg) (rc + 1) (calls + 1)
termination_by 2 - rc
decreasing_by omega

/-- Modelled from the spec: one full Drafting ⇄ Reviewing phase of a task,
started with no feedback and `revision_count = 0`. -/
def runDraftReview {α : Type} (writer : Option String → α)
    (check : α → Option String) (accept : α → Confidence) : ReviewOutcome α :=
  reviewLoop writer check accept none 0 0

/- Helper lemmas. -/

theorem char_toNat_ofNat_valid (n : Nat) (h : n < 0xd800) :
    (Char.ofNat n).toNat = n := by
  rw [Char.ofNat, dif_pos (Or.inl h)]
  rfl

theorem toUpper_isLower_eq_false (c : Char) : (c.toUpper).isLower = false := by
  have e97 : (UInt32.toBitVec 97).toNat = 97 := rfl
  have e122 : (UInt32.toBitVec 122).toNat = 122 := rfl
  unfold Char.toUpper
  dsimp only
  split
  · next h =>
    generalize hg : c.toNat = n at h ⊢
    have hval : (Char.ofNat (n - 32)).toNat = n - 32 :=
      char_toNat_ofNat_valid _ (by omega)
    unfold Char.isLower
    simp only [Bool.and_eq_false_iff, decide_eq_false_iff_not, GE.ge,
      UInt32.le_def, BitVec.le_def, e97, e122]
    unfold Char.toNat UInt32.toNat at hval
    omega
  · next h =>
    unfold Char.isLower
    unfold Char.toNat at h
    simp only [Bool.and_eq_false_iff, decide_eq_false_iff_not, GE.ge,
      UInt32.le_def, BitVec.le_def, e97, e122]
    unfold UInt32.toNat at h
    omega

theorem hasLowerStr_jsToUpper (s : String) : hasLowerStr (jsToUpper s) = false := by
  simp [hasLowerStr, jsToUpper, List.any_map, Function.comp,
    toUpper_isLower_eq_false]

theorem pollStep_nonterminal (s : DashState) (t : TaskResp)
    (h : isTerminalStatus t.status = false) : pollStep s t = s := by
  simp only [isTerminalStatus, Bool.or_eq_false_iff, beq_eq_false_iff_ne,
    ne_eq] at h
  simp [pollStep, h.1, h.2]

theorem pollStep_complete (s : DashState) (t : TaskResp)
    (h : t.status = "complete") :
    pollStep s t =
      { s with activePolls := s.activePolls - 1
               report := (t.result.bind TaskResult.draft_report).getD {}
               status := .idle } := by
  simp [pollStep, h]

theorem pollStep_error (s : DashState) (t : TaskResp)
    (h : t.status = "error") :
    pollStep s t =
      { s with activePolls := s.activePolls - 1
               errorMsg := jsOrStr t.error pollGenericErrorMsg
               status := .idle } := by
  simp [pollStep, h]

theorem pollStep_terminal_polls (s : DashState) (t : TaskResp)
    (h : isTerminalStatus t.status = true) :
    (pollStep s t).activePolls = s.activePolls - 1 := by
  simp only [isTerminalStatus, Bool.or_eq_true, beq_iff_eq] at h
  rcases h with h | h
  · rw [pollStep_complete s t h]
  · rw [pollStep_error s t h]

theorem runPoll_inactive (s : DashState) (h : s.activePolls = 0)
    (rs : List TaskResp) : runPoll s rs = (s, 0) := by
  cases rs <;> simp [runPoll, h]

theorem runEvents_invariant (P : DashState → Prop) (s : DashState)
    (evs : List DashEv) (h0 : P s)
    (hstep : ∀ s e, e ∈ evs → P s → P (step s e)) : P (runEvents s evs) := by
  induction evs generalizing s with
  | nil => exact h0
  | cons e evs ih =>
    exact ih (step s e) (hstep s e (List.mem_cons_self e evs) h0)
      fun s' e' he' hp' => hstep s' e' (List.mem_cons_of_mem e he') hp'

theorem reviewLoop_writerCalls_le {α : Type} (writer : Option String → α)
    (check : α → Option String) (accept : α → Confidence) :
    ∀ (m : Nat) (fb : Option String) (rc k : Nat), 2 - rc ≤ m →
      (reviewLoop writer check accept fb rc k).writerCalls ≤ k + 1 + (2 - rc) := by
  intro m
  induction m with
  | zero =>
    intro fb rc k hm
    rw [reviewLoop]
    split
    · simp
    · rw [dif_pos (by omega)]
      simp
  | succ m ih =>
    intro fb rc k hm
    rw [reviewLoop]
    split
    · simp
    · by_cases h2 : rc ≥ 2
      · rw [dif_pos h2]
        simp
      · rw [dif_neg h2]
        rename_i msg heq
        have hrec := ih (some msg) (rc + 1) (k + 1) (by omega)
        omega

/-- C4: the Drafting ⇄ Reviewing loop invokes the Writer at most 3 times in
total, whatever the Writer produces and however the Critic judges it; and
whenever the Critic rejects a draft with `revision_count` already at 2 it
accepts that draft, forcibly sets confidence Low, and terminates the loop
with no further Writer invocation. -/
theorem c4_review_loop_bounded {α : Type} (writer : Option String → α)
    (check : α → Option String) (accept : α → Confidence) :
    (runDraftReview writer check accept).writerCalls ≤ 3 ∧
    (∀ (fb : Option String) (k : Nat), (check (writer fb)).isSome = true →
      reviewLoop writer check accept fb 2 k =
        ⟨writer fb, Confidence.low, k + 1⟩) := by
  constructor
  · have h := reviewLoop_writerCalls_le writer check accept 2 none 0 0 (by omega)
    simpa [runDraftReview] using h
  · intro fb k hc
    rcases Option.isSome_iff_exists.mp hc with ⟨msg, hmsg⟩
    rw [reviewLoop]
    simp only [hmsg]
    rw [dif_pos (by omega)]

def rejectionNote : String := "numeric mismatch"

theorem c4_witness :
    (runDraftReview (fun _ => (0 : Nat)) (fun _ => some rejectionNote)
      (fun _ => Confidence.high)).writerCalls ≤ 3 ∧
    reviewLoop (fun _ => (0 : Nat)) (fun _ => some rejectionNote)
      (fun _ => Confidence.high) none 2 0 = ⟨0, Confidence.low, 1⟩ := by
  have h := c4_review_loop_bounded (fun _ => (0 : Nat))
    (fun _ => some rejectionNote) (fun _ => Confidence.high)
  exact ⟨h.1, h.2 none 0 (by simp)⟩

/-- C5 counterexample: a present sentiment score equal to 0 renders as
"Neutral", not formatted to two decimal places — `item.score ? ... :
"Neutral"` tests JavaScript truthiness, and the number 0 is falsy — so the
claim that every present score is rendered with two decimals is false. -/
theorem c5_counterexample :
    ¬ ∀ q : ℚ, sentimentBadge (some q) =
        SentimentBadge.twoDecimals (jsToFixed2 q) := by
  intro h
  have h0 := h 0
  simp [sentimentBadge] at h0

/-- C5 (amended): an absent sentiment score renders as "Neutral", a present
score equal to 0 also renders as "Neutral", and a present nonzero score
renders formatted to two decimal places. -/
theorem c5_sentiment_badge :
    sentimentBadge none = SentimentBadge.neutral ∧
    sentimentBadge (some 0) = SentimentBadge.neutral ∧
    ∀ q : ℚ, q ≠ 0 →
      sentimentBadge (some q) = SentimentBadge.twoDecimals (jsToFixed2 q) := by
  refine ⟨rfl, by simp [sentimentBadge], fun q hq => ?_⟩
  simp [sentimentBadge, hq]

theorem c5_witness :
    sentimentBadge (some (1 : ℚ)) = SentimentBadge.twoDecimals (jsToFixed2 1) :=
  c5_sentiment_badge.2.2 1 (by norm_num)

/-- C9: the volume sub-panel receives exactly one histogram bar per candle;
the bar's value is the candle's volume, or 0 when the volume is absent, and
its color is the up color exactly when `close ≥ open` (and the down color
otherwise). -/
theorem c9_volume_bars (cs : List Candle) :
    (volumeBars cs).length = cs.length ∧
    ∀ (i : Nat) (c : Candle) (b : VolumeBar),
      cs[i]? = some c → (volumeBars cs)[i]? = some b →
      b.time = c.time ∧ b.value = c.volume.getD 0 ∧
      (b.color = volUpColor ↔ c.close ≥ c.«open») ∧
      (b.color = volDownColor ↔ ¬ c.close ≥ c.«open») := by
  constructor
  · simp [volumeBars]
  · intro i c b hc hb
    rw [volumeBars, List.getElem?_map, hc, Option.map_some'] at hb
    have hb' := (Option.some_injective _ hb).symm
    subst hb'
    have hne : volUpColor ≠ volDownColor := by decide
    refine ⟨rfl, rfl, ?_, ?_⟩
    · show (if c.close ≥ c.«open» then volUpColor else volDownColor) =
        volUpColor ↔ c.close ≥ c.«open»
      by_cases hco : c.close ≥ c.«open»
      · rw [if_pos hco]
        exact iff_of_true rfl hco
      · rw [if_neg hco]
        exact iff_of_false (fun hud => hne hud.symm) hco
    · show (if c.close ≥ c.«open» then volUpColor else volDownColor) =
        volDownColor ↔ ¬ c.close ≥ c.«open»
      by_cases hco : c.close ≥ c.«open»
      · rw [if_pos hco]
        exact iff_of_false hne (not_not_intro hco)
      · rw [if_neg hco]
        exact iff_of_true rfl hco

def sampleCandle : Candle :=
  { time := "2024-01-02"
    «open» := 10
    high := 12
    low := 9
    close := 11
    volume := none }

def sampleBar : VolumeBar :=
  { time := "2024-01-02"
    value := 0
    color := volUpColor }

theorem c9_witness :
    sampleBar.value = sampleCandle.volume.getD 0 ∧
    (sampleBar.color = volUpColor ↔ sampleCandle.close ≥ sampleCandle.«open») := by
  have h := (c9_volume_bars [sampleCandle]).2 0 sampleCandle sampleBar rfl
    (by simp [volumeBars, sampleCandle, sampleBar]; norm_num)
  exact ⟨h.2.1, h.2.2.1⟩

/-- C2: on a poll response with status `"complete"`, the client stores
`result.draft_report` as the displayed report — the empty report when
`result` or `draft_report` is absent — and returns its status to idle. -/
theorem c2_complete_stores_report (s : DashState) (t : TaskResp)
    (hst : t.status = "complete") :
    (pollStep s t).status = DashStatus.idle ∧
    (t.result = none → (pollStep s t).report = {}) ∧
    (∀ r, t.result = some r → r.draft_report = none →
      (pollStep s t).report = {}) ∧
    (∀ r d, t.result = some r → r.draft_report = some d →
      (pollStep s t).report = d) := by
  rw [pollStep_complete s t hst]
  refine ⟨rfl, ?_, ?_, ?_⟩
  · intro h
    simp [h]
  · intro r h hd
    simp [h, hd]
  · intro r d h hd
    simp [h, hd]

def sampleSummaryText : String := "สรุปผู้บริหาร"

def sampleDraft : Report :=
  { executive_summary := some sampleSummaryText }

def completeResp : TaskResp :=
  { status := "complete"
    result := some { draft_report := some sampleDraft }
    error := none }

theorem c2_witness :
    (pollStep initState completeResp).status = DashStatus.idle ∧
    (pollStep initState completeResp).report = sampleDraft := by
  have h := c2_complete_stores_report initState completeResp rfl
  exact ⟨h.1, h.2.2.2 _ _ rfl rfl⟩

/-- C3: on a poll response with status `"error"` whose task record carries
one of the specific fatal cause strings (modelled from the spec, the
backend sources being absent), the client clears its poll interval, leaves
the displayed report empty (it was emptied when the analysis started),
surfaces exactly that cause string — which is never the generic fallback
message — and returns to idle. -/
theorem c3_error_surfaces_cause (s : DashState) (t : TaskResp) (k : FatalKind)
    (hst : t.status = "error") (he : t.error = some (fatalCause k))
    (hr : s.report = {}) :
    (pollStep s t).activePolls = s.activePolls - 1 ∧
    (pollStep s t).report = {} ∧
    (pollStep s t).errorMsg = fatalCause k ∧
    (pollStep s t).errorMsg ≠ pollGenericErrorMsg ∧
    (pollStep s t).status = DashStatus.idle := by
  rw [pollStep_error s t hst]
  have hne : fatalCause k ≠ "" := by
    cases k <;> simp [fatalCause]
  have hgen : fatalCause k ≠ pollGenericErrorMsg := by
    cases k <;> simp [fatalCause, pollGenericErrorMsg]
  refine ⟨rfl, hr, ?_, ?_, rfl⟩
  · simp [jsOrStr, he, hne]
  · simp [jsOrStr, he, hne, hgen]

def errorResp : TaskResp :=
  { status := "error"
    result := none
    error := some (fatalCause FatalKind.priceDataUnavailable) }

theorem c3_witness :
    (pollStep initState errorResp).errorMsg =
      fatalCause FatalKind.priceDataUnavailable ∧
    (pollStep initState errorResp).errorMsg ≠ pollGenericErrorMsg ∧
    (pollStep initState errorResp).report = {} ∧
    (pollStep initState errorResp).status = DashStatus.idle := by
  have h := c3_error_surfaces_cause initState errorResp
    FatalKind.priceDataUnavailable rfl rfl rfl
  exact ⟨h.2.2.1, h.2.2.2.1, h.2.1, h.2.2.2.2⟩

/-- C6: an empty or missing news list in the news response is a valid
non-error outcome of a market-data load: the state holds the empty
sequence, the news panel shows the no-news placeholder, the candles are
still stored, and the load completes back to idle with no error message. -/
theorem c6_empty_news_is_soft (s : DashState) (pr : HistoryResp)
    (nr : NewsResp) (hn : nr.news = none ∨ nr.news = some []) :
    (runEvents s [DashEv.loadStart, DashEv.loadDone pr nr]).news = [] ∧
    noNewsPlaceholder
      (runEvents s [DashEv.loadStart, DashEv.loadDone pr nr]) = true ∧
    (runEvents s [DashEv.loadStart, DashEv.loadDone pr nr]).candles =
      pr.candles ∧
    (runEvents s [DashEv.loadStart, DashEv.loadDone pr nr]).status =
      DashStatus.idle ∧
    (runEvents s [DashEv.loadStart, DashEv.loadDone pr nr]).errorMsg = "" := by
  have hnews : nr.news.getD [] = [] := by
    rcases hn with h | h <;> simp [h]
  simp [runEvents, step, applyMarketData, noNewsPlaceholder, hnews]

def emptyHistory : HistoryResp :=
  { candles := []
    indicators := none
    rsi := none
    macd := none }

def noNews : NewsResp := { news := none }

theorem c6_witness :
    (runEvents initState
      [DashEv.loadStart, DashEv.loadDone emptyHistory noNews]).news = [] ∧
    noNewsPlaceholder (runEvents initState
      [DashEv.loadStart, DashEv.loadDone emptyHistory noNews]) = true ∧
    (runEvents initState
      [DashEv.loadStart, DashEv.loadDone emptyHistory noNews]).status =
      DashStatus.idle := by
  have h := c6_empty_news_is_soft initState emptyHistory noNews (Or.inl rfl)
  exact ⟨h.1, h.2.1, h.2.2.2.1⟩

/-- C7: after a successful market-data load the dashboard state equals the
history response fields: candles exactly as returned, indicators falling
back to the empty object, the RSI series falling back to the empty list and
the MACD series falling back to null exactly when the response omits
them. -/
theorem c7_history_fields_stored (s : DashState) (pr : HistoryResp)
    (nr : NewsResp) :
    (runEvents s [DashEv.loadStart, DashEv.loadDone pr nr]).candles =
      pr.candles ∧
    (pr.indicators = none →
      (runEvents s [DashEv.loadStart, DashEv.loadDone pr nr]).indicators =
        {}) ∧
    (∀ v, pr.indicators = some v →
      (runEvents s [DashEv.loadStart, DashEv.loadDone pr nr]).indicators =
        v) ∧
    (pr.rsi = none →
      (runEvents s [DashEv.loadStart, DashEv.loadDone pr nr]).rsiSeries =
        []) ∧
    (∀ v, pr.rsi = some v →
      (runEvents s [DashEv.loadStart, DashEv.loadDone pr nr]).rsiSeries =
        v) ∧
    (pr.macd = none →
      (runEvents s [DashEv.loadStart, DashEv.loadDone pr nr]).macdSeries =
        none) ∧
    (∀ v, pr.macd = some v →
      (runEvents s [DashEv.loadStart, DashEv.loadDone pr nr]).macdSeries =
        some v) := by
  refine ⟨by simp [runEvents, step, applyMarketData], ?_, ?_, ?_, ?_, ?_, ?_⟩
  all_goals
    first
    | (intro h
       simp [runEvents, step, applyMarketData, h])
    | (intro v h
       simp [runEvents, step, applyMarketData, h])

theorem c7_witness :
    (runEvents initState
      [DashEv.loadStart, DashEv.loadDone emptyHistory noNews]).candles =
      emptyHistory.candles ∧
    (runEvents initState
      [DashEv.loadStart, DashEv.loadDone emptyHistory noNews]).indicators =
      {} ∧
    (runEvents initState
      [DashEv.loadStart, DashEv.loadDone emptyHistory noNews]).rsiSeries =
      [] ∧
    (runEvents initState
      [DashEv.loadStart, DashEv.loadDone emptyHistory noNews]).macdSeries =
      none := by
  have h := c7_history_fields_stored initState emptyHistory noNews
  exact ⟨h.1, h.2.1 rfl, h.2.2.2.1 rfl, h.2.2.2.2.2.1 rfl⟩

theorem runPoll_count (s : DashState) (hA : s.activePolls = 1)
    (rs : List TaskResp) :
    (runPoll s rs).2 =
      min rs.length
        ((rs.takeWhile fun t => !isTerminalStatus t.status).length + 1) := by
  induction rs with
  | nil => simp [runPoll]
  | cons t ts ih =>
    rw [runPoll, if_pos (by omega)]
    by_cases ht : isTerminalStatus t.status = true
    · have h0 : (pollStep s t).activePolls = 0 := by
        rw [pollStep_terminal_polls s t ht, hA]
      rw [runPoll_inactive _ h0]
      simp only [List.takeWhile_cons, ht, Bool.not_true, if_neg]
      simp
    · have hft : isTerminalStatus t.status = false := by
        simpa using ht
      rw [pollStep_nonterminal s t hft]
      have hlt : (ts.takeWhile fun t => !isTerminalStatus t.status).length ≤
          ts.length :=
        List.Sublist.length_le (List.takeWhile_sublist _)
      simp only [List.takeWhile_cons, hft, Bool.not_false, if_pos,
        List.length_cons, ih]
      omega

/-- C1: the polling client polls at a fixed 1.5-second interval (1500 ms);
starting from the single freshly-installed interval, the number of
`GET /api/analyze/{task_id}` requests issued over a response sequence is
one per leading non-terminal (neither `"complete"` nor `"error"`) response
plus one for the first terminal response, capped by the sequence length —
so polling continues over non-terminal statuses (which leave the client
unchanged) and no further poll happens after a terminal status clears the
interval. -/
theorem c1_polling_until_terminal (s : DashState) (hA : s.activePolls = 1)
    (rs : List TaskResp) :
    pollIntervalMs = 1500 ∧
    (runPoll s rs).2 =
      min rs.length
        ((rs.takeWhile fun t => !isTerminalStatus t.status).length + 1) ∧
    (∀ t, isTerminalStatus t.status = false → pollStep s t = s) ∧
    (∀ t, isTerminalStatus t.status = true →
      (pollStep s t).activePolls = 0) := by
  refine ⟨rfl, runPoll_count s hA rs, fun t ht => pollStep_nonterminal s t ht,
    fun t ht => ?_⟩
  rw [pollStep_terminal_polls s t ht, hA]

def runningResp : TaskResp :=
  { status := "running"
    result := none
    error := none }

def pollOneState : DashState := { initState with activePolls := 1 }

def pollScenario : List TaskResp := [runningResp, completeResp]

theorem c1_witness :
    pollIntervalMs = 1500 ∧
    (runPoll pollOneState pollScenario).2 =
      min pollScenario.length
        ((pollScenario.takeWhile
          fun t => !isTerminalStatus t.status).length + 1) ∧
    (pollStep pollOneState runningResp = pollOneState) ∧
    (pollStep pollOneState completeResp).activePolls = 0 := by
  have h := c1_polling_until_terminal pollOneState rfl pollScenario
  exact ⟨h.1, h.2.1, h.2.2.1 runningResp (by decide),
    h.2.2.2 completeResp (by decide)⟩

theorem pollStep_ticker_requests (s : DashState) (t : TaskResp) :
    (pollStep s t).ticker = s.ticker ∧
    (pollStep s t).requestedTickers = s.requestedTickers := by
  unfold pollStep
  constructor <;> (split <;> split <;> rfl)

/-- C8: the ticker held in the dashboard state is always free of lowercase
latin letters — every input event stores the uppercase image of the raw
text, starting from `"AAPL"` — and therefore the `ticker` query parameter
of every request the component has issued (to `/api/market/history`,
`/api/market/news` and `/api/analyze`, logged in `requestedTickers`)
contains no lowercase letter. -/
theorem c8_ticker_uppercase (evs : List DashEv) :
    hasLowerStr ((runEvents initState evs).ticker) = false ∧
    ∀ q ∈ (runEvents initState evs).requestedTickers,
      hasLowerStr q = false := by
  refine runEvents_invariant
    (fun s => hasLowerStr s.ticker = false ∧
      ∀ q ∈ s.requestedTickers, hasLowerStr q = false)
    initState evs ⟨by decide, by simp [initState]⟩ ?_
  intro s e _ hp
  obtain ⟨ht, hq⟩ := hp
  cases e with
  | tickerInput raw =>
    exact ⟨hasLowerStr_jsToUpper raw, hq⟩
  | loadStart =>
    refine ⟨ht, ?_⟩
    intro q hqm
    simp only [step, List.mem_append, List.mem_cons,
      List.not_mem_nil, or_false] at hqm
    rcases hqm with h | h | h
    · exact hq q h
    · exact h ▸ ht
    · exact h ▸ ht
  | loadDone pr nr => exact ⟨ht, hq⟩
  | loadFail => exact ⟨ht, hq⟩
  | clickAnalyze =>
    simp only [step]
    split
    · refine ⟨ht, ?_⟩
      intro q hqm
      simp only [List.mem_append, List.mem_cons, List.not_mem_nil,
        or_false] at hqm
      rcases hqm with h | h
      · exact hq q h
      · exact h ▸ ht
    · exact ⟨ht, hq⟩
  | analyzeOk =>
    simp only [step]
    split
    · exact ⟨ht, hq⟩
    · exact ⟨ht, hq⟩
  | analyzeFail =>
    simp only [step]
    split
    · exact ⟨ht, hq⟩
    · exact ⟨ht, hq⟩
  | pollResp t =>
    simp only [step]
    split
    · rw [(pollStep_ticker_requests s t).1, (pollStep_ticker_requests s t).2]
      exact ⟨ht, hq⟩
    · exact ⟨ht, hq⟩

def lowercaseTickerText : String := "msft"

def uppercaseTickerText : String := "MSFT"

def tickerTrace : List DashEv :=
  [DashEv.tickerInput lowercaseTickerText, DashEv.loadStart]

theorem c8_witness :
    hasLowerStr ((runEvents initState tickerTrace).ticker) = false ∧
    hasLowerStr uppercaseTickerText = false := by
  refine ⟨(c8_ticker_uppercase tickerTrace).1,
    (c8_ticker_uppercase tickerTrace).2 uppercaseTickerText ?_⟩
  decide

/-- The number of analyses currently in flight: analyze requests awaiting a
response plus installed poll intervals. -/
def analysisInFlight (s : DashState) : Nat :=
  s.activePolls + (if s.pendingAnalyze then 1 else 0)

/-- The inductive invariant behind the amended C10: at most one analysis in
flight, and the `analyzing` status displayed exactly while one is. -/
def OneAnalysisInv (s : DashState) : Prop :=
  analysisInFlight s ≤ 1 ∧
  (s.status = DashStatus.analyzing ↔
    (s.pendingAnalyze = true ∨ s.activePolls = 1))

/-- Whether an event belongs to a market-data load (`loadMarketData`):
these events overwrite the status and can return it to idle while a poll
interval is still installed. -/
def isLoadEv : DashEv → Bool
  | .loadStart => true
  | .loadDone _ _ => true
  | .loadFail => true
  | _ => false

theorem oneAnalysisInv_step (s : DashState) (e : DashEv)
    (he : isLoadEv e = false) (h : OneAnalysisInv s) :
    OneAnalysisInv (step s e) := by
  obtain ⟨h1, h2⟩ := h
  cases e with
  | tickerInput raw => exact ⟨h1, h2⟩
  | loadStart => exact absurd he (by simp [isLoadEv])
  | loadDone pr nr => exact absurd he (by simp [isLoadEv])
  | loadFail => exact absurd he (by simp [isLoadEv])
  | clickAnalyze =>
    simp only [step]
    split
    · next hidle =>
      have hnor : ¬ (s.pendingAnalyze = true ∨ s.activePolls = 1) := by
        intro hor
        have hst := h2.mpr hor
        rw [hidle] at hst
        exact absurd hst (by simp)
      push_neg at hnor
      obtain ⟨hpend, hpolls⟩ := hnor
      have hpendf : s.pendingAnalyze = false := by simpa using hpend
      have hp0 : s.activePolls = 0 := by
        simp only [analysisInFlight, hpendf, if_false] at h1
        omega
      constructor
      · simp [analysisInFlight, hp0]
      · simp [hp0]
    · exact ⟨h1, h2⟩
  | analyzeOk =>
    simp only [step]
    split
    · next hpend =>
      have hp0 : s.activePolls = 0 := by
        simp only [analysisInFlight, hpend, if_true] at h1
        omega
      have hst : s.status = DashStatus.analyzing := h2.mpr (Or.inl hpend)
      constructor
      · simp [analysisInFlight, hp0]
      · simp [hst, hp0]
    · exact ⟨h1, h2⟩
  | analyzeFail =>
    simp only [step]
    split
    · next hpend =>
      have hp0 : s.activePolls = 0 := by
        simp only [analysisInFlight, hpend, if_true] at h1
        omega
      constructor
      · simp [analysisInFlight, hp0]
      · simp [hp0]
    · exact ⟨h1, h2⟩
  | pollResp t =>
    simp only [step]
    split
    · next hpos =>
      have hpendf : s.pendingAnalyze = false := by
        by_contra hb
        have hbt : s.pendingAnalyze = true := by simpa using hb
        simp only [analysisInFlight, hbt, if_true] at h1
        omega
      have hp1 : s.activePolls = 1 := by
        simp only [analysisInFlight, hpendf, if_false] at h1
        omega
      by_cases ht : isTerminalStatus t.status = true
      · have hor : t.status = "complete" ∨ t.status = "error" := by
          simpa [isTerminalStatus] using ht
        rcases hor with hc | hc
        · rw [pollStep_complete s t hc]
          constructor
          · simp [analysisInFlight, hpendf, hp1]
          · simp [hpendf, hp1]
        · rw [pollStep_error s t hc]
          constructor
          · simp [analysisInFlight, hpendf, hp1]
          · simp [hpendf, hp1]
      · rw [pollStep_nonterminal s t (by simpa using ht)]
        exact ⟨h1, h2⟩
    · exact ⟨h1, h2⟩

def doubleAnalyzeTrace : List DashEv :=
  [DashEv.clickAnalyze, DashEv.analyzeOk, DashEv.loadStart,
   DashEv.loadDone emptyHistory noNews, DashEv.clickAnalyze,
   DashEv.analyzeOk]

/-- C10 counterexample: the at-most-one-analysis-in-flight invariant fails
on the code as a whole.  A market-data load (a timeframe change or
Refresh) completing while an analysis is being polled returns the status
to idle, re-enabling the Analyze button; clicking it installs a second
poll interval, so two analyses are in flight after the trace
click-Analyze, request accepted, load starts, load completes,
click-Analyze, request accepted. -/
theorem c10_counterexample :
    ¬ ∀ evs : List DashEv,
        analysisInFlight (runEvents initState evs) ≤ 1 := by
  intro h
  exact absurd (h doubleAnalyzeTrace) (by decide)

/-- C10 (amended): the Analyze action is a no-op unless the status is idle,
initiating an analysis moves the status to `analyzing` with the request in
flight, and in any event sequence containing no market-data load events —
which also overwrite the status and can return it to idle while a poll is
active — at most one analysis is in flight at a time. -/
theorem c10_single_analysis (evs : List DashEv)
    (hload : ∀ e ∈ evs, isLoadEv e = false) :
    analysisInFlight (runEvents initState evs) ≤ 1 ∧
    (∀ s : DashState, s.status ≠ DashStatus.idle →
      step s DashEv.clickAnalyze = s) ∧
    (∀ s : DashState, s.status = DashStatus.idle →
      (step s DashEv.clickAnalyze).status = DashStatus.analyzing ∧
      (step s DashEv.clickAnalyze).pendingAnalyze = true) := by
  refine ⟨?_, ?_, ?_⟩
  · have h := runEvents_invariant OneAnalysisInv initState evs
      ⟨by simp [OneAnalysisInv, analysisInFlight, initState],
       by simp [OneAnalysisInv, initState]⟩
      (fun s e he hp => oneAnalysisInv_step s e (hload e he) hp)
    exact h.1
  · intro s hs
    simp only [step]
    rw [if_neg hs]
  · intro s hs
    simp only [step]
    rw [if_pos hs]
    exact ⟨rfl, rfl⟩

def singleAnalyzeTrace : List DashEv :=
  [DashEv.clickAnalyze, DashEv.analyzeOk]

theorem c10_witness :
    analysisInFlight (runEvents initState singleAnalyzeTrace) ≤ 1 ∧
    (step initState DashEv.clickAnalyze).status = DashStatus.analyzing :=
  ⟨(c10_single_analysis singleAnalyzeTrace (by decide)).1,
   ((c10_single_analysis singleAnalyzeTrace (by decide)).2.2 initState
     rfl).1⟩

end StockDash
